import Mathlib

/-!
Shallow embedding of the ingestion-and-detection core of `src/app.py`
(a whale-trade alert bot for the Kalshi exchange): trade normalization,
anomaly tagging, durable storage, watermark handling, subscriber dispatch,
and the resilient HTTP fetcher with host failover and `min_ts` capability
detection.

Modelling conventions:
* Python floats are modelled as exact fractions (`Frac`).  The properties
  under study only sign-test, compare, and truncate these values on small
  inputs, where binary floating point is exact as well.
* SQLite tables become Lean lists carried in a `DB` record; `aiosqlite`
  calls become pure state passing.  `prints` rows keep their tag list; the
  source stores `",".join(flags)` in the TEXT column, an injective
  rendering since no tag contains a comma.
* The Telegram transport is an oracle `send : Int → String → Bool` giving
  the delivery outcome per (user id, trade id); the source ignores this
  outcome (`notify_user` logs and swallows `TelegramNetworkError`), and
  market-title lookup plus message formatting are display-only, so a
  dispatched notification is recorded as (uid, trade id, ticker, flags,
  delivered).
* The upstream exchange is an oracle from request shape to response.
-/

/- ## 1. Python value helpers and the trade normalizer
   (src/app.py lines 171-184, 282-306) -/

/-- Exact fraction standing for a Python float value `n / d`.  Every
construction below keeps `d` positive; comparisons cross-multiply. -/
structure Frac where
  n : Int
  d : Nat
deriving DecidableEq, Repr

def Frac.ofInt (i : Int) : Frac := ⟨i, 1⟩

def Frac.mul (a b : Frac) : Frac := ⟨a.n * b.n, a.d * b.d⟩

/-- Division by `100.0` as in `count * (cents / 100.0)`. -/
def Frac.div100 (a : Frac) : Frac := ⟨a.n, a.d * 100⟩

def Frac.le (a b : Frac) : Prop := a.n * (b.d : Int) ≤ b.n * (a.d : Int)

def Frac.lt (a b : Frac) : Prop := a.n * (b.d : Int) < b.n * (a.d : Int)

instance (a b : Frac) : Decidable (Frac.le a b) := by unfold Frac.le; infer_instance

instance (a b : Frac) : Decidable (Frac.lt a b) := by unfold Frac.lt; infer_instance

/-- Python `int(float_value)`: truncation toward zero. -/
def Frac.trunc (a : Frac) : Int := a.n.tdiv (a.d : Int)

/-- Python `a or b` for optional strings (falsy: missing or empty). -/
def pyStrOr (a : Option String) (k : String) : String :=
  match a with
  | some s => if s = "" then k else s
  | none => k

/-- Python `a or b` for optional ints (falsy: missing or zero). -/
def pyIntOr (a : Option Int) (k : Int) : Int :=
  match a with
  | some v => if v = 0 then k else v
  | none => k

/-- Python `a or b` for optional floats (falsy: missing or zero). -/
def pyFracOr (a : Option Frac) (k : Frac) : Frac :=
  match a with
  | some v => if v.n = 0 then k else v
  | none => k

/-- Python `str.upper()` (ASCII, which is all the source feeds it). -/
def upperStr (s : String) : String := ⟨s.data.map Char.toUpper⟩

/-- A raw timestamp value as found in an upstream trade object: either a
JSON integer or a JSON string.  ISO-8601 strings and other non-digit
strings are covered by the `sval` case (they fail `isdigit` and the
model, like the source's fallback, returns the current wall clock). -/
inductive TsVal where
  | ival (n : Int)
  | sval (s : String)
deriving DecidableEq, Repr

/-- Python truthiness of a raw timestamp value (`0` is falsy, any
non-empty string is truthy). -/
def truthyTs : TsVal → Bool
  | .ival n => decide (n ≠ 0)
  | .sval s => decide (s ≠ "")

/-- Numeric value of a digit string, as Python `int(s)` computes it. -/
def digitsToNat (l : List Char) : Nat :=
  l.foldl (fun a c => a * 10 + (c.toNat - 48)) 0

/-- Seconds-vs-milliseconds disambiguation of `parse_ts_to_ms`
(src/app.py line 180): values at most `10_000_000_000` are seconds. -/
def scaleTs (v : Int) : Int := if 10000000000 < v then v else v * 1000

/-- `parse_ts_to_ms` (src/app.py lines 174-184).  `str(int)` of a
non-negative int is all digits; a negative int or a non-digit string is
unparseable (the ISO branch of such inputs raises) and falls back to the
current wall clock `nowMs`. -/
def parse_ts_to_ms (nowMs : Int) : Option TsVal → Int
  | none => nowMs
  | some (.ival v) => if 0 ≤ v then scaleTs v else nowMs
  | some (.sval s) =>
    if s ≠ "" ∧ s.data.all Char.isDigit then scaleTs (digitsToNat s.data : Int) else nowMs

/-- A raw upstream trade object; `none` is a missing key.  Fields are the
exact keys the source reads. -/
structure RawTrade where
  id : Option String := none
  trade_id : Option String := none
  ticker : Option String := none
  market : Option String := none
  side : Option String := none
  direction : Option String := none
  count : Option Int := none
  size : Option Int := none
  yes_price_dollars : Option Frac := none
  yes_price : Option Frac := none
  price : Option Frac := none
  created_time : Option TsVal := none
  ts : Option TsVal := none
deriving DecidableEq, Repr

/-- `trade_notional_usd` (src/app.py lines 282-297): count from
`count or size or 0` (truthiness), then an explicit dollar price if the
`yes_price_dollars` key is present, else a cents price if `yes_price`
(or else `price`) is present, else notional `0`. -/
def trade_notional_usd (tr : RawTrade) : Frac :=
  let count := pyIntOr tr.count (pyIntOr tr.size 0)
  match tr.yes_price_dollars with
  | some dollars => Frac.mul (Frac.ofInt count) dollars
  | none =>
    match tr.yes_price with
    | some cents => Frac.mul (Frac.ofInt count) (Frac.div100 cents)
    | none =>
      match tr.price with
      | some cents => Frac.mul (Frac.ofInt count) (Frac.div100 cents)
      | none => Frac.ofInt 0

/-- The Python value `tr.get("created_time") or tr.get("ts")` fed to
`parse_ts_to_ms` (src/app.py line 301). -/
def tsArg (tr : RawTrade) : Option TsVal :=
  match tr.created_time with
  | some v => if truthyTs v then some v else tr.ts
  | none => tr.ts

/-- Rendering of `tr.get('created_time','')` inside the synthesized
trade id f-string. -/
def renderTs : Option TsVal → String
  | none => ""
  | some (.ival v) => toString v
  | some (.sval s) => s

/-- Rendering of `tr.get('count','')` inside the synthesized trade id. -/
def renderOptInt : Option Int → String
  | none => ""
  | some v => toString v

/-- The canonical tuple returned by `trade_core_fields`
(src/app.py lines 299-306). -/
structure CoreFields where
  trade_id : String
  ts_ms : Int
  ticker : String
  side : String
  count : Int
  yes_cents : Int
deriving DecidableEq, Repr

/-- `trade_core_fields` (src/app.py lines 299-306). -/
def trade_core_fields (nowMs : Int) (tr : RawTrade) : CoreFields :=
  let synth := "t_" ++ (tr.ticker.getD "") ++ "_" ++ renderTs tr.created_time
      ++ "_" ++ renderOptInt tr.count
  let sideRaw := upperStr (pyStrOr tr.side (pyStrOr tr.direction ""))
  { trade_id := pyStrOr tr.id (pyStrOr tr.trade_id synth)
    ts_ms := parse_ts_to_ms nowMs (tsArg tr)
    ticker := upperStr (pyStrOr tr.ticker (pyStrOr tr.market ""))
    side := if sideRaw = "" then "UNKNOWN" else sideRaw
    count := pyIntOr tr.count (pyIntOr tr.size 0)
    yes_cents := Frac.trunc (pyFracOr tr.yes_price (pyFracOr tr.price (Frac.ofInt 0))) }

/- ## 2. Topic classification (src/app.py lines 189-197) -/

/-- Whether `needle` starts `hay` (character sequences). -/
def seqStarts : List Char → List Char → Bool
  | [], _ => true
  | _ :: _, [] => false
  | a :: as', b :: bs => a = b && seqStarts as' bs

/-- Python substring test `needle in hay`. -/
def seqIn (needle : List Char) : List Char → Bool
  | [] => seqStarts needle []
  | b :: bs => seqStarts needle (b :: bs) || seqIn needle bs

def containsTok (hay needle : String) : Bool := seqIn needle.data hay.data

/-- `categorize_ticker` (src/app.py lines 189-194). -/
def categorize_ticker (tk : String) : String :=
  let t := upperStr tk
  if containsTok t "BTC" || containsTok t "CRYPTO" then "crypto"
  else if containsTok t "CPI" || containsTok t "FED" || containsTok t "RATE"
      || containsTok t "UNEMP" || containsTok t "GDP" || containsTok t "PCE" then "macro"
  else if containsTok t "NFL" || containsTok t "NBA" || containsTok t "MLB"
      || containsTok t "NHL" || containsTok t "EPL" then "sports"
  else "other"

/-- `topic_match` (src/app.py lines 196-197). -/
def topic_match (user_topic : String) (tk : String) : Prop :=
  user_topic = "all" ∨ categorize_ticker tk = user_topic

instance (u tk : String) : Decidable (topic_match u tk) := by
  unfold topic_match; infer_instance

/- ## 3. Median (src/app.py lines 199-202) -/

/-- Stable insertion into a list sorted by `le`. -/
def insertLe {α : Type} (le : α → α → Bool) (x : α) : List α → List α
  | [] => [x]
  | y :: ys => if le x y then x :: y :: ys else y :: insertLe le x ys

/-- Stable insertion sort; on integer keys it returns the same sorted
sequence as Python's `sorted`. -/
def sortLe {α : Type} (le : α → α → Bool) (l : List α) : List α :=
  l.foldr (insertLe le) []

/-- `median` (src/app.py lines 199-202): `0.0` for an empty list, the
middle element for odd length, the mean of the two middle elements for
even length. -/
def median (lst : List Int) : Frac :=
  if lst.isEmpty then Frac.ofInt 0
  else
    let a := sortLe (fun x y => decide (x ≤ y)) lst
    let mid := a.length / 2
    if a.length % 2 = 1 then Frac.ofInt (a.getD mid 0)
    else ⟨a.getD (mid - 1) 0 + a.getD mid 0, 2⟩

/- ## 4. Durable store (schema lines 122-144; ops lines 308-337) -/

/-- One row of the `prints` table.  `flags` keeps the tag list whose
comma-join the source stores in the TEXT column. -/
structure PrintRow where
  trade_id : String
  ts_ms : Int
  ticker : String
  side : String
  count : Int
  yes_cents : Int
  notional_usd : Frac
  flags : List String
deriving DecidableEq, Repr

/-- The stored TEXT value of the `flags` column. -/
def flagsColumn (r : PrintRow) : String := String.intercalate "," r.flags

/-- Lookup in the `stats` table (one row per ticker); SQL returns `0`
when no row exists and the schema declares `DEFAULT 0`. -/
def statsLookup : List (String × Int) → String → Int
  | [], _ => 0
  | p :: rest, tk => if p.1 = tk then p.2 else statsLookup rest tk

/-- `INSERT ... ON CONFLICT(ticker) DO UPDATE SET last_trade_ts_ms =
excluded.last_trade_ts_ms`: replace the row if present, else append. -/
def statsUpsert : List (String × Int) → String → Int → List (String × Int)
  | [], tk, ts' => [(tk, ts')]
  | p :: rest, tk, ts' =>
    if p.1 = tk then (tk, ts') :: rest else p :: statsUpsert rest tk ts'

/-- The persisted state owned by the core: the `prints` table and the
`stats` table.  (The `meta` watermark scalar is threaded separately, as
the loop's `last_ts` local that `db_set` persists.) -/
structure DB where
  prints : List PrintRow
  stats : List (String × Int)
deriving DecidableEq, Repr

/-- `last_trade_ts_for_ticker` (src/app.py lines 315-319). -/
def last_trade_ts_for_ticker (db : DB) (ticker : String) : Int :=
  statsLookup db.stats ticker

/-- `update_last_trade_ts` (src/app.py lines 321-327). -/
def update_last_trade_ts (db : DB) (ticker : String) (ts' : Int) : DB :=
  { db with stats := statsUpsert db.stats ticker ts' }

/-- `store_print` (src/app.py lines 329-337): plain INSERT keyed by the
`trade_id` PRIMARY KEY; a duplicate raises `IntegrityError` which is
caught and ignored, so the call is a no-op then. -/
def store_print (db : DB) (r : PrintRow) : DB :=
  if db.prints.any (fun q => decide (q.trade_id = r.trade_id)) then db
  else { db with prints := db.prints ++ [r] }

/-- `ticker_recent_counts_24h` (src/app.py lines 308-313): sizes of this
ticker's stored prints in the trailing 24 hours from the wall clock,
newest first, capped at 5000 rows. -/
def ticker_recent_counts_24h (nowMs : Int) (db : DB) (ticker : String) : List Int :=
  let since := nowMs - 24 * 3600 * 1000
  ((sortLe (fun a b => decide (b.ts_ms ≤ a.ts_ms))
      (db.prints.filter (fun r => decide (r.ticker = ticker ∧ since ≤ r.ts_ms)))).take 5000).map
    (fun r => r.count)

/-- The inline `SELECT COUNT(*) FROM prints WHERE ticker=? AND ts_ms>=?
AND notional_usd>=?` of the ingest loop (src/app.py lines 423-427). -/
def count_recent_big_prints (db : DB) (ticker : String) (since : Int) (minNotional : Frac) : Nat :=
  (db.prints.filter
    (fun r => decide (r.ticker = ticker ∧ since ≤ r.ts_ms ∧ Frac.le minNotional r.notional_usd))).length

/- ## 5. Subscribers, notifications, and the ingest loop
   (src/app.py lines 339-343, 352-356, 378-450) -/

/-- One row of the `subs` table as `load_subscribers` returns it. -/
structure SubRow where
  user_id : Int
  alerts_on : Int
  thresh_usd : Frac
  topic : String
  tz : String
deriving DecidableEq, Repr

/-- One `notify_user` invocation made by the dispatch loop: who, for
which trade, and the tag list handed to the message formatter.
`delivered` is the transport outcome, which the source ignores. -/
structure Notif where
  uid : Int
  tradeId : String
  ticker : String
  flags : List String
  delivered : Bool
deriving DecidableEq, Repr

/-- A notification with its delivery outcome forgotten. -/
def eraseDelivered (n : Notif) : Int × String × String × List String :=
  (n.uid, n.tradeId, n.ticker, n.flags)

/-- Per-cycle environment: wall clock, `DEFAULT_THRESH`, and the `subs`
table snapshot.  The transport outcome oracle `send` (which user/trade
deliveries succeed) is passed alongside, since the source never reads the
outcome. -/
structure Env where
  nowMs : Int
  defaultThresh : Frac
  subs : List SubRow

/-- The loop-local mutable state of one poll cycle: the store plus
`max_seen`. -/
structure CycleState where
  db : DB
  maxSeen : Int
deriving DecidableEq, Repr

/-- The body of `for tr in trades:` in `ingest_loop`
(src/app.py lines 402-443), for one trade: normalize; skip non-positive
notional; Silent-breaker gap check against the prior per-ticker
timestamp; unconditional per-ticker timestamp upsert; Unusual-size median
check; store the print with the tags so far; Accumulation count over the
stored prints (current row included); dispatch to each active subscriber
whose threshold and topic match; finally update `max_seen`. -/
def processTrade (env : Env) (send : Int → String → Bool) (active : List SubRow)
    (st : CycleState) (tr : RawTrade) : CycleState × List Notif :=
  let f := trade_core_fields env.nowMs tr
  let notional := trade_notional_usd tr
  if Frac.le notional (Frac.ofInt 0) then (st, [])
  else
    let last_tick_ts := last_trade_ts_for_ticker st.db f.ticker
    let flags1 : List String :=
      if last_tick_ts ≠ 0 ∧ 2 * 3600 * 1000 ≤ f.ts_ms - last_tick_ts
      then ["Silent-breaker"] else []
    let db1 := update_last_trade_ts st.db f.ticker f.ts_ms
    let med := median (ticker_recent_counts_24h env.nowMs db1 f.ticker)
    let flags2 := flags1 ++
      (if Frac.lt (Frac.ofInt 0) med ∧ Frac.le (Frac.mul (Frac.ofInt 5) med) (Frac.ofInt f.count)
       then ["Unusual size"] else [])
    let db2 := store_print db1
      ⟨f.trade_id, f.ts_ms, f.ticker, f.side, f.count, f.yes_cents, notional, flags2⟩
    let n10 := count_recent_big_prints db2 f.ticker (f.ts_ms - 10 * 60 * 1000) env.defaultThresh
    let flags3 := flags2 ++ (if 3 ≤ n10 then ["Accumulation"] else [])
    let notifs := active.filterMap (fun s =>
      if Frac.le s.thresh_usd notional ∧ topic_match s.topic f.ticker then
        some ⟨s.user_id, f.trade_id, f.ticker, flags3, send s.user_id f.trade_id⟩
      else none)
    ({ db := db2, maxSeen := if st.maxSeen < f.ts_ms then f.ts_ms else st.maxSeen }, notifs)

/-- Fold step of the per-cycle trade loop, accumulating notifications. -/
def cycleStep (env : Env) (send : Int → String → Bool) (active : List SubRow)
    (acc : CycleState × List Notif) (tr : RawTrade) : CycleState × List Notif :=
  let r := processTrade env send active acc.1 tr
  (r.1, acc.2 ++ r.2)

/-- Result of one poll cycle: the store, the (possibly advanced)
persisted watermark, and the notifications attempted. -/
structure CycleResult where
  db : DB
  lastTs : Int
  notifs : List Notif
deriving DecidableEq, Repr

/-- One poll cycle of `ingest_loop` over an already-fetched batch
(src/app.py lines 397-448): snapshot the active subscribers, process the
trades in upstream order, then persist `max_seen` as the new watermark
only if it exceeds the old one. -/
def ingestCycle (env : Env) (send : Int → String → Bool) (db : DB) (lastTs : Int)
    (trades : List RawTrade) : CycleResult :=
  let active := env.subs.filter (fun s => decide (s.alerts_on = 1))
  let r := trades.foldl (cycleStep env send active) (⟨db, lastTs⟩, [])
  { db := r.1.db
    lastTs := if lastTs < r.1.maxSeen then r.1.maxSeen else lastTs
    notifs := r.2 }

/-- Errors `fetch_trades_since` can surface to the loop. -/
inductive FErr where
  | status400
  | statusOther
  | excOther
deriving DecidableEq, Repr

/-- Outcome of one fetch as the ingest loop sees it. -/
inductive FetchResult where
  | ok (trades : List RawTrade)
  | err (e : FErr)
deriving DecidableEq, Repr

/-- One tick of `ingest_loop` (src/app.py lines 385-450): a failed fetch
or an empty batch just waits for the next tick, leaving everything
unchanged; otherwise run the cycle. -/
def ingestTick (env : Env) (send : Int → String → Bool) (db : DB) (lastTs : Int)
    (fr : FetchResult) : CycleResult :=
  match fr with
  | .err _ => ⟨db, lastTs, []⟩
  | .ok trades =>
    if trades.isEmpty then ⟨db, lastTs, []⟩ else ingestCycle env send db lastTs trades

/-- A sequence of ticks, threading the store and the watermark. -/
def runTicks (send : Int → String → Bool) : DB → Int → List (Env × FetchResult) → DB × Int
  | db, wm, [] => (db, wm)
  | db, wm, p :: rest =>
    runTicks send (ingestTick p.1 send db wm p.2).db (ingestTick p.1 send db wm p.2).lastTs rest

/- ## 6. Capability-detecting fetcher (src/app.py lines 251-280) -/

/-- Response of one upstream `GET /markets/trades` round trip as
`fetch_trades_since` classifies it: success, an HTTP 400,
another `httpx.HTTPStatusError`, or any other exception (network
failure, all-hosts-exhausted `RuntimeError`, ...). -/
inductive FetchResp where
  | ok (trades : List RawTrade)
  | status400
  | statusOther
  | excOther
deriving DecidableEq, Repr

/-- How an un-retried response surfaces to the caller. -/
def surfaced : FetchResp → FetchResult
  | .ok l => .ok l
  | .status400 => .err .status400
  | .statusOther => .err .statusOther
  | .excOther => .err .excOther

/-- The fetcher's process-wide capability tri-state
(`KalshiHTTP.min_ts_supported`). -/
structure FetchState where
  min_ts_supported : Option Bool
deriving DecidableEq, Repr

/-- Result of one `fetch_trades_since` call: what is returned or raised,
the capability state afterwards, and the `filtered?` flag of every
upstream call made (in order). -/
structure FetchOut where
  result : FetchResult
  state : FetchState
  calls : List Bool
deriving DecidableEq, Repr

/-- The main `GET /markets/trades` of `fetch_trades_since`
(src/app.py lines 267-280): include `min_ts` iff the capability is
marked supported; on a 400 while marked supported, downgrade to
unsupported and retry exactly once without the filter, surfacing that
retry's outcome; any other failure is raised as-is. -/
def fetch_call (st : FetchState) (oracle : Bool → FetchResp) (calls : List Bool) : FetchOut :=
  let filtered : Bool := decide (st.min_ts_supported = some true)
  match oracle filtered with
  | .ok l => ⟨.ok l, st, calls ++ [filtered]⟩
  | .status400 =>
    if st.min_ts_supported = some true then
      ⟨surfaced (oracle false), ⟨some false⟩, calls ++ [filtered, false]⟩
    else ⟨.err .status400, st, calls ++ [filtered]⟩
  | .statusOther => ⟨.err .statusOther, st, calls ++ [filtered]⟩
  | .excOther => ⟨.err .excOther, st, calls ++ [filtered]⟩

/-- `fetch_trades_since` (src/app.py lines 251-280).  When the capability
is still unknown, a filtered probe call decides it: success marks it
supported, a 400 marks it unsupported, another HTTP status error is
re-raised (leaving it unknown), and any other exception marks it
unsupported ("probe inconclusive").  Then the main call runs as
`fetch_call`.  The oracle maps the `filtered?` request shape to the
upstream's response. -/
def fetch_trades_since (st : FetchState) (oracle : Bool → FetchResp) : FetchOut :=
  match st.min_ts_supported with
  | none =>
    match oracle true with
    | .ok _ => fetch_call ⟨some true⟩ oracle [true]
    | .status400 => fetch_call ⟨some false⟩ oracle [true]
    | .statusOther => ⟨.err .statusOther, ⟨none⟩, [true]⟩
    | .excOther => fetch_call ⟨some false⟩ oracle [true]
  | some _ => fetch_call st oracle []

/-- A sequence of `fetch_trades_since` calls (one per poll tick),
threading the capability state and collecting each call's trace. -/
def runFetches : FetchState → List (Bool → FetchResp) → FetchState × List (List Bool)
  | st, [] => (st, [])
  | st, o :: os =>
    ((runFetches (fetch_trades_since st o).state os).1,
      (fetch_trades_since st o).calls :: (runFetches (fetch_trades_since st o).state os).2)

/- ## 7. Resilient HTTP transport with host failover
   (src/app.py lines 57-103) -/

/-- Response of `self.client.get(url, ...)` for one host, as
`resilient_get` classifies it: 200 with a JSON body, a 5xx status, a 4xx
status (`raise_for_status` raises, caught by the generic handler, which
breaks), or a network-level exception (connect/timeout), which advances
to the next host. -/
inductive GetResp where
  | ok (data : String)
  | server5xx
  | client4xx
  | netErr
deriving DecidableEq, Repr

/-- The exception `resilient_get` raises when no host returned data:
the last error seen, or "All hosts failed" if none was recorded. -/
inductive GetErr where
  | server5xx
  | client4xx
  | netErr
  | allHostsFailed
deriving DecidableEq, Repr

/-- What a finished `resilient_get` produces: the JSON body or the
raised error, plus the host that got pinned by a success (`none` when
the loop ended by break or exhaustion, leaving the pin unchanged). -/
inductive TryOutcome where
  | ok (data : String) (host : String)
  | err (e : GetErr)
deriving DecidableEq, Repr

/-- The `for h in order:` loop of `resilient_get` (src/app.py lines
82-103): a 5xx or network failure records `last_err` and continues; a
success returns that host's data and that host; a 4xx records the error
and breaks; an exhausted list raises the last recorded error. -/
def try_hosts (respond : String → GetResp) : List String → Option GetErr → TryOutcome
  | [], lastErr => .err (lastErr.getD .allHostsFailed)
  | h :: rest, lastErr =>
    match respond h with
    | .ok d => .ok d h
    | .server5xx => try_hosts respond rest (some .server5xx)
    | .netErr => try_hosts respond rest (some .netErr)
    | .client4xx => .err .client4xx

/-- `FALLBACK` (src/app.py line 35). -/
def FALLBACK : String := "https://api.elections.kalshi.com/trade-api/v2"

/-- Pinned-host state of `KalshiHTTP`. -/
structure HttpState where
  hosts : List String
  host : Option String
deriving DecidableEq, Repr

/-- `pick_host` (src/app.py lines 64-75): probe the hosts in order and
pin the first that answers 200; if all probes fail, pin `FALLBACK`.
`probe` tells which hosts answer the cheap `/markets` probe with 200. -/
def pick_host (probe : String → Bool) (hosts : List String) : String :=
  (hosts.find? probe).getD FALLBACK

/-- The host `resilient_get` starts from: the pinned host, or the result
of `pick_host` when none is pinned yet. -/
def currentHost (probe : String → Bool) (st : HttpState) : String :=
  match st.host with
  | some h => h
  | none => pick_host probe st.hosts

/-- The request order `[self.host] + [h for h in self.hosts if h !=
self.host]` (src/app.py line 80). -/
def requestOrder (probe : String → Bool) (st : HttpState) : List String :=
  currentHost probe st :: st.hosts.filter (fun x => decide (x ≠ currentHost probe st))

/-- `resilient_get` (src/app.py lines 77-103): ensure a host is pinned,
walk the hosts in order via `try_hosts`, and re-pin to the host that
answered on success.  On failure the pin is left as it was after the
initial `pick_host`. -/
def resilient_get (probe : String → Bool) (respond : String → GetResp) (st : HttpState) :
    Except GetErr String × HttpState :=
  let st1 : HttpState := { st with host := some (currentHost probe st) }
  match try_hosts respond (requestOrder probe st) none with
  | .ok d h' => (.ok d, { st1 with host := some h' })
  | .err e => (.error e, st1)

/- ## 8. Decomposition helpers for the cycle fold -/

/-- The store-and-dispatch part of `processTrade`, without the `max_seen`
bookkeeping.  `processTrade_decomp` below proves that `processTrade` is
exactly this paired with `maxUpd`, which is evident from the source: the
loop body never reads `max_seen` before its final update, and the final
update depends only on the trade. -/
def processTradeDB (env : Env) (send : Int → String → Bool) (active : List SubRow)
    (db : DB) (tr : RawTrade) : DB × List Notif :=
  let f := trade_core_fields env.nowMs tr
  let notional := trade_notional_usd tr
  if Frac.le notional (Frac.ofInt 0) then (db, [])
  else
    let last_tick_ts := last_trade_ts_for_ticker db f.ticker
    let flags1 : List String :=
      if last_tick_ts ≠ 0 ∧ 2 * 3600 * 1000 ≤ f.ts_ms - last_tick_ts
      then ["Silent-breaker"] else []
    let db1 := update_last_trade_ts db f.ticker f.ts_ms
    let med := median (ticker_recent_counts_24h env.nowMs db1 f.ticker)
    let flags2 := flags1 ++
      (if Frac.lt (Frac.ofInt 0) med ∧ Frac.le (Frac.mul (Frac.ofInt 5) med) (Frac.ofInt f.count)
       then ["Unusual size"] else [])
    let db2 := store_print db1
      ⟨f.trade_id, f.ts_ms, f.ticker, f.side, f.count, f.yes_cents, notional, flags2⟩
    let n10 := count_recent_big_prints db2 f.ticker (f.ts_ms - 10 * 60 * 1000) env.defaultThresh
    let flags3 := flags2 ++ (if 3 ≤ n10 then ["Accumulation"] else [])
    let notifs := active.filterMap (fun s =>
      if Frac.le s.thresh_usd notional ∧ topic_match s.topic f.ticker then
        some ⟨s.user_id, f.trade_id, f.ticker, flags3, send s.user_id f.trade_id⟩
      else none)
    (db2, notifs)

/-- The `max_seen` part of one loop iteration: unchanged for a skipped
(non-positive-notional) trade, else the running maximum of `ts_ms`. -/
def maxUpd (env : Env) (m : Int) (tr : RawTrade) : Int :=
  if Frac.le (trade_notional_usd tr) (Frac.ofInt 0) then m
  else
    if m < (trade_core_fields env.nowMs tr).ts_ms then (trade_core_fields env.nowMs tr).ts_ms
    else m

/-- Fold step over `DB × notifications` alone. -/
def dbStep (env : Env) (send : Int → String → Bool) (active : List SubRow)
    (acc : DB × List Notif) (tr : RawTrade) : DB × List Notif :=
  let r := processTradeDB env send active acc.1 tr
  (r.1, acc.2 ++ r.2)

/- ## 9. Concrete instances used by witnesses and counterexamples -/

/-- The empty store. -/
def dbE : DB := ⟨[], []⟩

/-- A delivery oracle that always succeeds. -/
def sendOk : Int → String → Bool := fun _ _ => true

/-- A delivery oracle that always fails. -/
def sendBad : Int → String → Bool := fun _ _ => false

/-- Environment with one active catch-all subscriber (user 7,
threshold $100). -/
def envC1 : Env := ⟨0, ⟨5000, 1⟩, [⟨7, 1, ⟨100, 1⟩, "all", "UTC"⟩]⟩

/-- A positive-notional trade ($500) with event time 900000 ms. -/
def trC1 : RawTrade :=
  { id := some "T1", ticker := some "BTCUSD", count := some 1000,
    yes_price := some ⟨50, 1⟩, created_time := some (.ival 900) }

/-- An upstream that ignores the request shape and returns `[trC1]`. -/
def oracleC1 : Bool → FetchResp := fun _ => .ok [trC1]

/-- Environment with no subscribers. -/
def envPlain : Env := ⟨0, ⟨5000, 1⟩, []⟩

/-- A zero-notional trade (no price key) with event time 2000000 ms. -/
def trC2 : RawTrade :=
  { id := some "T2", ticker := some "AAA", count := some 5, created_time := some (.ival 2000) }

/-- Trade at 200000 ms on ticker AAA. -/
def trC3a : RawTrade :=
  { id := some "A1", ticker := some "AAA", count := some 1,
    yes_price := some ⟨50, 1⟩, created_time := some (.ival 200) }

/-- Trade at 100000 ms on ticker AAA (out of order after `trC3a`). -/
def trC3b : RawTrade :=
  { id := some "B1", ticker := some "AAA", count := some 1,
    yes_price := some ⟨50, 1⟩, created_time := some (.ival 100) }

/-- A positive-notional trade with event time 500000 ms. -/
def trC4 : RawTrade :=
  { id := some "C4", ticker := some "AAA", count := some 1,
    yes_price := some ⟨50, 1⟩, created_time := some (.ival 500) }

/-- A trade with event time 200000 ms and a prior per-ticker record. -/
def stW3 : CycleState := ⟨⟨[], [("AAA", 999999)]⟩, 0⟩

/-- First insert of the C5 witness. -/
def rW1 : PrintRow := ⟨"T", 1, "A", "YES", 1, 50, ⟨1, 2⟩, []⟩

/-- Second insert of the C5 witness: same trade id, all other fields
different. -/
def rW2 : PrintRow := ⟨"T", 2, "B", "NO", 9, 10, ⟨7, 1⟩, ["x"]⟩

/-- Environment with one active catch-all subscriber (user 1,
threshold $1). -/
def envW6 : Env := ⟨0, ⟨5000, 1⟩, [⟨1, 1, ⟨1, 1⟩, "all", "UTC"⟩]⟩

/-- An upstream that rejects the filtered request with a 400 and answers
the unfiltered one with an empty batch. -/
def oracleC7 : Bool → FetchResp := fun b => if b then .status400 else .ok []

/-- Host responses: A answers 5xx, everything else succeeds. -/
def respondC8 : String → GetResp := fun h => if h = "A" then .server5xx else .ok "data"

/-- Two hosts with A pinned. -/
def stC8 : HttpState := ⟨["A", "B"], some "A"⟩

/-- Environment with default threshold $1 and one active catch-all
subscriber. -/
def envX : Env := ⟨0, ⟨1, 1⟩, [⟨1, 1, ⟨1, 1⟩, "all", "UTC"⟩]⟩

/-- $5 trade on AAA at 1000000 ms. -/
def trX1 : RawTrade :=
  { id := some "X1", ticker := some "AAA", count := some 10,
    yes_price := some ⟨50, 1⟩, created_time := some (.ival 1000) }

/-- $5 trade on AAA at 1100000 ms. -/
def trX2 : RawTrade :=
  { id := some "X2", ticker := some "AAA", count := some 10,
    yes_price := some ⟨50, 1⟩, created_time := some (.ival 1100) }

/-- $5 trade on AAA at 1200000 ms; the third high-value print inside ten
minutes. -/
def trX3 : RawTrade :=
  { id := some "X3", ticker := some "AAA", count := some 10,
    yes_price := some ⟨50, 1⟩, created_time := some (.ival 1200) }

/-- Three high-value prints on one ticker within ten minutes. -/
def tradesX : List RawTrade := [trX1, trX2, trX3]

/-- State with a prior recorded timestamp 1000 for ABC. -/
def stW9 : CycleState := ⟨⟨[], [("ABC", 1000)]⟩, 0⟩

/-- Trade on ABC at 7201000 ms: exactly two hours after the recorded
1000 ms. -/
def trW9 : RawTrade :=
  { id := some "T9", ticker := some "ABC", count := some 1,
    yes_price := some ⟨50, 1⟩, created_time := some (.ival 7201) }

/- ## 10. Shared lemmas -/

/-- A `Frac` is positive exactly when it is not `≤ 0`. -/
theorem frac_pos_iff_not_le (a : Frac) :
    Frac.lt (Frac.ofInt 0) a ↔ ¬ Frac.le a (Frac.ofInt 0) := by
  unfold Frac.lt Frac.le Frac.ofInt
  simp

/-- `processTrade` splits into its store-and-dispatch part and its
`max_seen` part. -/
theorem processTrade_decomp (env : Env) (send : Int → String → Bool) (active : List SubRow)
    (db : DB) (m : Int) (tr : RawTrade) :
    processTrade env send active ⟨db, m⟩ tr =
      (⟨(processTradeDB env send active db tr).1, maxUpd env m tr⟩,
        (processTradeDB env send active db tr).2) := by
  unfold processTrade processTradeDB maxUpd
  by_cases h : Frac.le (trade_notional_usd tr) (Frac.ofInt 0)
  · simp [h]
  · simp [h]

/-- The trade fold splits likewise. -/
theorem foldl_cycleStep_decomp (env : Env) (send : Int → String → Bool)
    (active : List SubRow) :
    ∀ (trades : List RawTrade) (db : DB) (m : Int) (ns : List Notif),
      trades.foldl (cycleStep env send active) (⟨db, m⟩, ns) =
        (⟨(trades.foldl (dbStep env send active) (db, ns)).1, trades.foldl (maxUpd env) m⟩,
          (trades.foldl (dbStep env send active) (db, ns)).2) := by
  intro trades
  induction trades with
  | nil => intro db m ns; rfl
  | cons tr rest ih =>
    intro db m ns
    have hstep : cycleStep env send active (⟨db, m⟩, ns) tr =
        (⟨(processTradeDB env send active db tr).1, maxUpd env m tr⟩,
          ns ++ (processTradeDB env send active db tr).2) := by
      unfold cycleStep
      rw [show ((⟨db, m⟩, ns) : CycleState × List Notif).1 = ⟨db, m⟩ from rfl,
        processTrade_decomp]
    have hstep' : dbStep env send active (db, ns) tr =
        ((processTradeDB env send active db tr).1,
          ns ++ (processTradeDB env send active db tr).2) := rfl
    simp only [List.foldl_cons]
    rw [hstep, ih, hstep']

/-- `ingestCycle`, decomposed. -/
theorem ingestCycle_eq (env : Env) (send : Int → String → Bool) (db : DB) (wm : Int)
    (trades : List RawTrade) :
    ingestCycle env send db wm trades =
      { db := (trades.foldl
            (dbStep env send (env.subs.filter (fun s => decide (s.alerts_on = 1)))) (db, [])).1
        lastTs := if wm < trades.foldl (maxUpd env) wm then trades.foldl (maxUpd env) wm else wm
        notifs := (trades.foldl
            (dbStep env send (env.subs.filter (fun s => decide (s.alerts_on = 1))))
            (db, [])).2 } := by
  unfold ingestCycle
  simp only [foldl_cycleStep_decomp]

/-- One `max_seen` step never decreases it. -/
theorem le_maxUpd (env : Env) (m : Int) (tr : RawTrade) : m ≤ maxUpd env m tr := by
  unfold maxUpd
  split
  · exact le_refl m
  · split
    · omega
    · exact le_refl m

/-- The folded `max_seen` never decreases. -/
theorem le_foldl_maxUpd (env : Env) :
    ∀ (trades : List RawTrade) (m : Int), m ≤ trades.foldl (maxUpd env) m := by
  intro trades
  induction trades with
  | nil => intro m; exact le_refl m
  | cons tr rest ih => intro m; exact le_trans (le_maxUpd env m tr) (ih _)

/-- The folded `max_seen` is the start value or the event time of some
positive-notional trade of the batch. -/
theorem foldl_maxUpd_cases (env : Env) :
    ∀ (trades : List RawTrade) (m : Int),
      trades.foldl (maxUpd env) m = m ∨
        ∃ tr ∈ trades, ¬ Frac.le (trade_notional_usd tr) (Frac.ofInt 0) ∧
          trades.foldl (maxUpd env) m = (trade_core_fields env.nowMs tr).ts_ms := by
  intro trades
  induction trades with
  | nil => intro m; exact Or.inl rfl
  | cons tr rest ih =>
    intro m
    simp only [List.foldl_cons]
    rcases ih (maxUpd env m tr) with h | ⟨tr', htr', hpos, heq⟩
    · rw [h]
      by_cases hle : Frac.le (trade_notional_usd tr) (Frac.ofInt 0)
      · left
        unfold maxUpd
        rw [if_pos hle]
      · by_cases hlt : m < (trade_core_fields env.nowMs tr).ts_ms
        · right
          refine ⟨tr, List.mem_cons_self _ _, hle, ?_⟩
          unfold maxUpd
          rw [if_neg hle, if_pos hlt]
        · left
          unfold maxUpd
          rw [if_neg hle, if_neg hlt]
    · exact Or.inr ⟨tr', List.mem_cons_of_mem _ htr', hpos, heq⟩

/-- Upserting a ticker's timestamp makes its lookup return exactly that
timestamp. -/
theorem statsLookup_upsert_self :
    ∀ (l : List (String × Int)) (tk : String) (v : Int),
      statsLookup (statsUpsert l tk v) tk = v := by
  intro l tk v
  induction l with
  | nil => simp [statsUpsert, statsLookup]
  | cons p rest ih =>
    by_cases h : p.1 = tk
    · simp [statsUpsert, statsLookup, h]
    · simp [statsUpsert, statsLookup, h, ih]

/-- `store_print` leaves the `stats` table untouched. -/
theorem store_print_stats (db : DB) (r : PrintRow) : (store_print db r).stats = db.stats := by
  unfold store_print
  split
  · rfl
  · rfl

/-- `update_last_trade_ts` leaves the `prints` table untouched. -/
theorem update_last_trade_ts_prints (db : DB) (tk : String) (v : Int) :
    (update_last_trade_ts db tk v).prints = db.prints := rfl

/-- Dispatching with two delivery oracles produces the same
notifications up to the delivery outcome. -/
theorem filterMap_notif_erase (active : List SubRow) (p : SubRow → Prop) [DecidablePred p]
    (tid tk : String) (fl : List String) (o₁ o₂ : Int → String → Bool) :
    (active.filterMap (fun s =>
        if p s then some (⟨s.user_id, tid, tk, fl, o₁ s.user_id tid⟩ : Notif) else none)).map
      eraseDelivered =
    (active.filterMap (fun s =>
        if p s then some (⟨s.user_id, tid, tk, fl, o₂ s.user_id tid⟩ : Notif) else none)).map
      eraseDelivered := by
  induction active with
  | nil => rfl
  | cons s rest ih =>
    by_cases h : p s
    · simp [List.filterMap_cons, h, eraseDelivered, ih]
    · simp [List.filterMap_cons, h, ih]

/-- Every dispatched notification's delivery outcome is the oracle at its
own user and trade. -/
theorem filterMap_notif_delivered (active : List SubRow) (p : SubRow → Prop) [DecidablePred p]
    (tid tk : String) (fl : List String) (o : Int → String → Bool) :
    ∀ n ∈ active.filterMap (fun s =>
        if p s then some (⟨s.user_id, tid, tk, fl, o s.user_id tid⟩ : Notif) else none),
      n.delivered = o n.uid n.tradeId := by
  induction active with
  | nil => intro n hn; simp [List.filterMap_nil] at hn
  | cons s rest ih =>
    intro n hn
    by_cases h : p s
    · rw [List.filterMap_cons] at hn
      simp only [if_pos h, List.mem_cons] at hn
      rcases hn with rfl | hn
      · rfl
      · exact ih n hn
    · rw [List.filterMap_cons] at hn
      simp only [if_neg h] at hn
      exact ih n hn

/-- `processTradeDB` under two delivery oracles: same store, same
notifications up to delivery outcome. -/
theorem processTradeDB_send (env : Env) (o₁ o₂ : Int → String → Bool) (active : List SubRow)
    (db : DB) (tr : RawTrade) :
    (processTradeDB env o₁ active db tr).1 = (processTradeDB env o₂ active db tr).1 ∧
    ((processTradeDB env o₁ active db tr).2).map eraseDelivered =
      ((processTradeDB env o₂ active db tr).2).map eraseDelivered := by
  unfold processTradeDB
  by_cases h : Frac.le (trade_notional_usd tr) (Frac.ofInt 0)
  · simp [h]
  · constructor
    · simp only [if_neg h]
    · simp only [if_neg h]
      exact filterMap_notif_erase _ _ _ _ _ _ _

/-- Every notification `processTradeDB` emits carries the oracle's
outcome at its own user and trade. -/
theorem processTradeDB_delivered (env : Env) (send : Int → String → Bool)
    (active : List SubRow) (db : DB) (tr : RawTrade) :
    ∀ n ∈ (processTradeDB env send active db tr).2, n.delivered = send n.uid n.tradeId := by
  unfold processTradeDB
  by_cases h : Frac.le (trade_notional_usd tr) (Frac.ofInt 0)
  · simp [h]
  · simp only [if_neg h]
    exact filterMap_notif_delivered _ _ _ _ _ _

/-- The trade fold under two delivery oracles: same store, same
notifications up to delivery outcome. -/
theorem foldl_dbStep_send (env : Env) (o₁ o₂ : Int → String → Bool) (active : List SubRow) :
    ∀ (trades : List RawTrade) (db : DB) (ns₁ ns₂ : List Notif),
      ns₁.map eraseDelivered = ns₂.map eraseDelivered →
      (trades.foldl (dbStep env o₁ active) (db, ns₁)).1 =
          (trades.foldl (dbStep env o₂ active) (db, ns₂)).1 ∧
        ((trades.foldl (dbStep env o₁ active) (db, ns₁)).2).map eraseDelivered =
          ((trades.foldl (dbStep env o₂ active) (db, ns₂)).2).map eraseDelivered := by
  intro trades
  induction trades with
  | nil => intro db ns₁ ns₂ hns; exact ⟨rfl, hns⟩
  | cons tr rest ih =>
    intro db ns₁ ns₂ hns
    obtain ⟨h1, h2⟩ := processTradeDB_send env o₁ o₂ active db tr
    simp only [List.foldl_cons, dbStep]
    rw [h1]
    exact ih _ _ _ (by rw [List.map_append, List.map_append, hns, h2])

/-- Delivery outcomes over the whole fold come from the oracle. -/
theorem foldl_dbStep_delivered (env : Env) (send : Int → String → Bool)
    (active : List SubRow) :
    ∀ (trades : List RawTrade) (db : DB) (ns : List Notif),
      (∀ n ∈ ns, n.delivered = send n.uid n.tradeId) →
      ∀ n ∈ (trades.foldl (dbStep env send active) (db, ns)).2,
        n.delivered = send n.uid n.tradeId := by
  intro trades
  induction trades with
  | nil => intro db ns hns; exact hns
  | cons tr rest ih =>
    intro db ns hns
    simp only [List.foldl_cons, dbStep]
    refine ih _ _ ?_
    intro n hn
    rcases List.mem_append.mp hn with h | h
    · exact hns n h
    · exact processTradeDB_delivered env send active db tr n h

/-- Membership in a conditional singleton list. -/
theorem mem_ite_singleton {α : Type} (c : Prop) [Decidable c] (x y : α)
    (h : y ∈ (if c then [x] else [])) : y = x := by
  split at h
  · exact List.mem_singleton.mp h
  · simp at h

/-- A row present after `store_print` was present before or is the new
row. -/
theorem store_print_mem (db : DB) (q : PrintRow) :
    ∀ r ∈ (store_print db q).prints, r ∈ db.prints ∨ r = q := by
  unfold store_print
  split
  · intro r hr
    exact Or.inl hr
  · intro r hr
    rcases List.mem_append.mp hr with h | h
    · exact Or.inl h
    · exact Or.inr (List.mem_singleton.mp h)

/-- Any row present after one `processTradeDB` step was present before,
or is the freshly stored row, whose tags are drawn from the two
pre-insert checks only. -/
theorem processTradeDB_flags (env : Env) (send : Int → String → Bool) (active : List SubRow)
    (db : DB) (tr : RawTrade) :
    ∀ r ∈ (processTradeDB env send active db tr).1.prints,
      r ∈ db.prints ∨ ∀ f ∈ r.flags, f = "Silent-breaker" ∨ f = "Unusual size" := by
  unfold processTradeDB
  by_cases h : Frac.le (trade_notional_usd tr) (Frac.ofInt 0)
  · simp only [if_pos h]
    intro r hr
    exact Or.inl hr
  · simp only [if_neg h]
    intro r hr
    rcases store_print_mem _ _ r hr with hmem | hnew
    · exact Or.inl hmem
    · right
      subst hnew
      intro f hf
      rcases List.mem_append.mp hf with h1 | h2
      · exact Or.inl (mem_ite_singleton _ _ _ h1)
      · exact Or.inr (mem_ite_singleton _ _ _ h2)

/-- Folded version: if every stored row carries only pre-insert tags,
that stays true across the whole batch. -/
theorem foldl_dbStep_flags (env : Env) (send : Int → String → Bool) (active : List SubRow) :
    ∀ (trades : List RawTrade) (db : DB) (ns : List Notif),
      (∀ r ∈ db.prints, ∀ f ∈ r.flags, f = "Silent-breaker" ∨ f = "Unusual size") →
      ∀ r ∈ (trades.foldl (dbStep env send active) (db, ns)).1.prints,
        ∀ f ∈ r.flags, f = "Silent-breaker" ∨ f = "Unusual size" := by
  intro trades
  induction trades with
  | nil => intro db ns hdb; exact hdb
  | cons tr rest ih =>
    intro db ns hdb
    simp only [List.foldl_cons, dbStep]
    refine ih _ _ ?_
    intro r hr
    rcases processTradeDB_flags env send active db tr r hr with hmem | hflags
    · exact hdb r hmem
    · exact hflags

/-- Once the capability is marked unsupported, one more fetch keeps it
unsupported and performs only unfiltered upstream calls. -/
theorem fetch_unfiltered (st : FetchState) (o : Bool → FetchResp)
    (h : st.min_ts_supported = some false) :
    (fetch_trades_since st o).state = ⟨some false⟩ ∧
      ∀ b ∈ (fetch_trades_since st o).calls, b = false := by
  obtain ⟨c⟩ := st
  simp only at h
  subst h
  unfold fetch_trades_since fetch_call
  rcases ho : o false with l | _ | _ | _ <;> simp [ho]

/-- Once the capability is marked unsupported, it stays unsupported for
the remainder of the run, and no later call ever includes the filter. -/
theorem runFetches_unfiltered :
    ∀ (os : List (Bool → FetchResp)) (st : FetchState),
      st.min_ts_supported = some false →
      (runFetches st os).1 = ⟨some false⟩ ∧
        ∀ t ∈ (runFetches st os).2, ∀ b ∈ t, b = false := by
  intro os
  induction os with
  | nil =>
    intro st h
    obtain ⟨c⟩ := st
    simp only at h
    subst h
    exact ⟨rfl, by simp [runFetches]⟩
  | cons o os' ih =>
    intro st h
    obtain ⟨h1, h2⟩ := fetch_unfiltered st o h
    have hrec := ih (fetch_trades_since st o).state (by rw [h1])
    refine ⟨by simpa [runFetches] using hrec.1, ?_⟩
    intro t ht
    simp only [runFetches, List.mem_cons] at ht
    rcases ht with rfl | ht
    · exact h2
    · exact hrec.2 t ht

/-- Walking the host order past failing-over hosts reaches the first
decisive host: success case. -/
theorem try_hosts_ok (respond : String → GetResp) (d : String) :
    ∀ (bad : List String) (x : String) (rest : List String) (e : Option GetErr),
      (∀ b ∈ bad, respond b = .server5xx ∨ respond b = .netErr) →
      respond x = .ok d →
      try_hosts respond (bad ++ x :: rest) e = .ok d x := by
  intro bad
  induction bad with
  | nil =>
    intro x rest e _ hx
    simp [try_hosts, hx]
  | cons b bs ih =>
    intro x rest e hb hx
    have hbs : ∀ c ∈ bs, respond c = .server5xx ∨ respond c = .netErr := by
      intro c hc
      exact hb c (List.mem_cons_of_mem _ hc)
    rcases hb b (List.mem_cons_self _ _) with h5 | hn
    · rw [List.cons_append]
      unfold try_hosts
      rw [h5]
      exact ih x rest _ hbs hx
    · rw [List.cons_append]
      unfold try_hosts
      rw [hn]
      exact ih x rest _ hbs hx

/-- Walking the host order past failing-over hosts reaches the first
decisive host: client-error case, which stops the walk. -/
theorem try_hosts_4xx (respond : String → GetResp) :
    ∀ (bad : List String) (x : String) (rest : List String) (e : Option GetErr),
      (∀ b ∈ bad, respond b = .server5xx ∨ respond b = .netErr) →
      respond x = .client4xx →
      try_hosts respond (bad ++ x :: rest) e = .err .client4xx := by
  intro bad
  induction bad with
  | nil =>
    intro x rest e _ hx
    simp [try_hosts, hx]
  | cons b bs ih =>
    intro x rest e hb hx
    have hbs : ∀ c ∈ bs, respond c = .server5xx ∨ respond c = .netErr := by
      intro c hc
      exact hb c (List.mem_cons_of_mem _ hc)
    rcases hb b (List.mem_cons_self _ _) with h5 | hn
    · rw [List.cons_append]
      unfold try_hosts
      rw [h5]
      exact ih x rest _ hbs hx
    · rw [List.cons_append]
      unfold try_hosts
      rw [hn]
      exact ih x rest _ hbs hx

/-- Inserting a fresh trade id appends the row. -/
theorem store_print_fresh (db : DB) (r : PrintRow)
    (h : db.prints.any (fun q => decide (q.trade_id = r.trade_id)) = false) :
    (store_print db r).prints = db.prints ++ [r] := by
  unfold store_print
  rw [h]
  rfl

/-- Where `Silent-breaker` can sit in the pre-insert tag list. -/
theorem sb_mem_flags2 (c c2 : Prop) [Decidable c] [Decidable c2] :
    ("Silent-breaker" ∈
        ((if c then ["Silent-breaker"] else []) ++
          (if c2 then ["Unusual size"] else []) : List String)) ↔ c := by
  by_cases h : c <;> by_cases h2 : c2 <;> simp [h, h2]

/-- One tick never lowers the watermark. -/
theorem tick_lastTs_le (env : Env) (send : Int → String → Bool) (db : DB) (wm : Int)
    (fr : FetchResult) : wm ≤ (ingestTick env send db wm fr).lastTs := by
  cases fr with
  | err e => exact le_refl wm
  | ok trades =>
    show wm ≤
      (if trades.isEmpty then (⟨db, wm, []⟩ : CycleResult)
        else ingestCycle env send db wm trades).lastTs
    by_cases he : trades.isEmpty
    · rw [if_pos he]
    · rw [if_neg he, ingestCycle_eq]
      show wm ≤
        if wm < trades.foldl (maxUpd env) wm then trades.foldl (maxUpd env) wm else wm
      split
      · omega
      · exact le_refl wm

/-- After a cycle the watermark is unchanged or coincides with the event
time of some positive-notional trade of the batch. -/
theorem cycle_lastTs_cases (env : Env) (send : Int → String → Bool) (db : DB) (wm : Int)
    (trades : List RawTrade) :
    (ingestCycle env send db wm trades).lastTs = wm ∨
      ∃ tr ∈ trades, ¬ Frac.le (trade_notional_usd tr) (Frac.ofInt 0) ∧
        (ingestCycle env send db wm trades).lastTs = (trade_core_fields env.nowMs tr).ts_ms := by
  rw [ingestCycle_eq]
  dsimp only
  by_cases hlt : wm < trades.foldl (maxUpd env) wm
  · rw [if_pos hlt]
    rcases foldl_maxUpd_cases env trades wm with h | ⟨tr, htr, hpos, heq⟩
    · omega
    · exact Or.inr ⟨tr, htr, hpos, heq⟩
  · rw [if_neg hlt]
    exact Or.inl rfl

/-- A sequence of ticks never lowers the watermark. -/
theorem runTicks_le (send : Int → String → Bool) :
    ∀ (ticks : List (Env × FetchResult)) (db : DB) (wm : Int),
      wm ≤ (runTicks send db wm ticks).2 := by
  intro ticks
  induction ticks with
  | nil => intro db wm; exact le_refl wm
  | cons p rest ih =>
    intro db wm
    exact le_trans (tick_lastTs_le p.1 send db wm p.2) (ih _ _)

/- ## 11. Claim theorems -/

/-- C1, counterexample.  With the filter capability unsupported, the
fetcher returns the latest trades unfiltered; the ingest loop then
stores AND dispatches a positive-notional trade whose timestamp 900000
lies below the watermark 1000000, instead of discarding it: the claimed
client-side `timestamp ≤ watermark` filter does not exist in
`ingest_loop` (src/app.py lines 402-443 have no such check). -/
theorem C1_counterexample :
    fetch_trades_since ⟨some false⟩ oracleC1 = ⟨.ok [trC1], ⟨some false⟩, [false]⟩ ∧
    (trade_core_fields envC1.nowMs trC1).ts_ms = 900000 ∧
    (900000 : Int) ≤ 1000000 ∧
    (ingestCycle envC1 sendOk dbE 1000000 [trC1]).db.prints =
      [⟨"T1", 900000, "BTCUSD", "UNKNOWN", 1000, 50, ⟨50000, 100⟩, []⟩] ∧
    (ingestCycle envC1 sendOk dbE 1000000 [trC1]).notifs = [⟨7, "T1", "BTCUSD", [], true⟩] := by
  refine ⟨by decide, by decide, by decide, by decide, by decide⟩

/-- C1, amended: the ingest loop performs no client-side timestamp
filter at all — the rows stored, the tags computed, and the
notifications dispatched by a poll cycle are identical for every
watermark value (only the final watermark bookkeeping reads it).  In
latest-trades mode, only the `trade_id` primary key deduplicates
storage, and dispatch is not suppressed, so already-seen trades can be
re-alerted. -/
theorem C1_no_client_side_filter (env : Env) (send : Int → String → Bool) (db : DB)
    (wm₁ wm₂ : Int) (trades : List RawTrade) :
    (ingestCycle env send db wm₁ trades).db = (ingestCycle env send db wm₂ trades).db ∧
    (ingestCycle env send db wm₁ trades).notifs =
      (ingestCycle env send db wm₂ trades).notifs := by
  rw [ingestCycle_eq env send db wm₁ trades, ingestCycle_eq env send db wm₂ trades]
  exact ⟨rfl, rfl⟩

/-- C2, counterexample.  A zero-notional trade with event time 2000000,
above the watermark 1000000, leaves the whole cycle state — including
the watermark — unchanged: `ingest_loop` executes `continue` before the
`max_seen` update (src/app.py lines 405-406 versus 442-443), so the
timestamp does NOT participate in the maximum-timestamp computation. -/
theorem C2_counterexample :
    trade_notional_usd trC2 = Frac.ofInt 0 ∧
    (trade_core_fields envPlain.nowMs trC2).ts_ms = 2000000 ∧
    (1000000 : Int) < 2000000 ∧
    ingestCycle envPlain sendOk dbE 1000000 [trC2] = ⟨dbE, 1000000, []⟩ := by
  refine ⟨by decide, by decide, by decide, by decide⟩

/-- C2, amended: a trade whose computed notional is `≤ 0` (zero, or
missing price inputs) is excluded from storage, from alerting, AND from
the watermark computation — processing it is a complete no-op. -/
theorem C2_zero_notional_skipped (env : Env) (send : Int → String → Bool)
    (active : List SubRow) (st : CycleState) (tr : RawTrade)
    (h : Frac.le (trade_notional_usd tr) (Frac.ofInt 0)) :
    processTrade env send active st tr = (st, []) := by
  unfold processTrade
  rw [if_pos h]

/-- Witness for `C2_zero_notional_skipped` at the concrete zero-notional
trade `trC2`. -/
theorem C2_zero_notional_skipped_witness :
    Frac.le (trade_notional_usd trC2) (Frac.ofInt 0) ∧
    processTrade envPlain sendOk [] ⟨dbE, 1000000⟩ trC2 = (⟨dbE, 1000000⟩, []) :=
  ⟨by decide, C2_zero_notional_skipped envPlain sendOk [] ⟨dbE, 1000000⟩ trC2 (by decide)⟩

/-- C3, counterexample.  Two trades for ticker AAA arrive in one batch
with out-of-order timestamps 200000 then 100000; afterwards the stored
`last_trade_ts_ms` is 100000, i.e. it DECREASED below the claimed
`max(previous, current) = 200000`: `update_last_trade_ts` overwrites
unconditionally (`SET last_trade_ts_ms = excluded.last_trade_ts_ms`,
src/app.py lines 321-327) rather than taking a maximum. -/
theorem C3_counterexample :
    (trade_core_fields envPlain.nowMs trC3a).ticker = "AAA" ∧
    (trade_core_fields envPlain.nowMs trC3a).ts_ms = 200000 ∧
    (trade_core_fields envPlain.nowMs trC3b).ticker = "AAA" ∧
    (trade_core_fields envPlain.nowMs trC3b).ts_ms = 100000 ∧
    last_trade_ts_for_ticker (ingestCycle envPlain sendOk dbE 0 [trC3a, trC3b]).db "AAA" =
      100000 ∧
    (100000 : Int) < 200000 := by
  refine ⟨by decide, by decide, by decide, by decide, by decide, by decide⟩

/-- C3, amended: after processing a positive-notional trade, the stored
`InstrumentState.last_trade_ts_ms` for its instrument equals that
trade's own timestamp unconditionally (last write wins); it can
therefore decrease when trades for one instrument arrive with
out-of-order timestamps. -/
theorem C3_last_write_wins (env : Env) (send : Int → String → Bool) (active : List SubRow)
    (st : CycleState) (tr : RawTrade)
    (h : ¬ Frac.le (trade_notional_usd tr) (Frac.ofInt 0)) :
    last_trade_ts_for_ticker (processTrade env send active st tr).1.db
        (trade_core_fields env.nowMs tr).ticker =
      (trade_core_fields env.nowMs tr).ts_ms := by
  unfold processTrade
  simp only [if_neg h]
  unfold last_trade_ts_for_ticker
  rw [store_print_stats]
  exact statsLookup_upsert_self _ _ _

/-- Witness for `C3_last_write_wins`: a trade at 100000 ms on AAA whose
stats row previously held 999999 ends with 100000 recorded. -/
theorem C3_last_write_wins_witness :
    ¬ Frac.le (trade_notional_usd trC3b) (Frac.ofInt 0) ∧
    last_trade_ts_for_ticker (processTrade envPlain sendOk [] stW3 trC3b).1.db "AAA" = 100000 :=
  ⟨by decide, C3_last_write_wins envPlain sendOk [] stW3 trC3b (by decide)⟩

/-- C4, counterexample.  A cycle whose only (positive-notional) trade
has timestamp 500000 while the watermark is 1000000 ends with the
watermark still 1000000 — which EXCEEDS the maximum timestamp 500000
among the trades processed in that cycle, contradicting the claim's
"after each cycle it never exceeds the maximum timestamp among the
trades processed in that cycle" (the claim excepts only empty batches
and failed fetches). -/
theorem C4_counterexample :
    ¬ Frac.le (trade_notional_usd trC4) (Frac.ofInt 0) ∧
    (trade_core_fields envPlain.nowMs trC4).ts_ms = 500000 ∧
    (ingestCycle envPlain sendOk dbE 1000000 [trC4]).lastTs = 1000000 ∧
    (500000 : Int) < 1000000 := by
  refine ⟨by decide, by decide, by decide, by decide⟩

/-- C4, amended: across any sequence of poll cycles the persisted
watermark never decreases; when a cycle changes it, the new value is the
event time of some positive-notional trade processed in that cycle (so
an advancing watermark never moves past the maximum timestamp
processed); an error result or an empty batch leaves everything
untouched. -/
theorem C4_watermark_monotone :
    (∀ (env : Env) (send : Int → String → Bool) (db : DB) (wm : Int) (fr : FetchResult),
      wm ≤ (ingestTick env send db wm fr).lastTs) ∧
    (∀ (env : Env) (send : Int → String → Bool) (db : DB) (wm : Int) (trades : List RawTrade),
      (ingestCycle env send db wm trades).lastTs = wm ∨
        ∃ tr ∈ trades, ¬ Frac.le (trade_notional_usd tr) (Frac.ofInt 0) ∧
          (ingestCycle env send db wm trades).lastTs = (trade_core_fields env.nowMs tr).ts_ms) ∧
    (∀ (env : Env) (send : Int → String → Bool) (db : DB) (wm : Int) (e : FErr),
      ingestTick env send db wm (.err e) = ⟨db, wm, []⟩) ∧
    (∀ (env : Env) (send : Int → String → Bool) (db : DB) (wm : Int),
      ingestTick env send db wm (.ok []) = ⟨db, wm, []⟩) ∧
    (∀ (send : Int → String → Bool) (ticks : List (Env × FetchResult)) (db : DB) (wm : Int),
      wm ≤ (runTicks send db wm ticks).2) :=
  ⟨fun env send db wm fr => tick_lastTs_le env send db wm fr,
   fun env send db wm trades => cycle_lastTs_cases env send db wm trades,
   fun _ _ _ _ _ => rfl,
   fun _ _ _ _ => rfl,
   fun send ticks db wm => runTicks_le send ticks db wm⟩

/-- C5: inserting two prints with the same `trade_id` into a store that
does not yet contain that id stores exactly the first row; the second
call returns the store unchanged (the `IntegrityError` is swallowed) —
no error, no modification of the stored row's fields or flags. -/
theorem C5_duplicate_insert_ignored (db : DB) (r₁ r₂ : PrintRow)
    (h0 : ∀ r ∈ db.prints, r.trade_id ≠ r₁.trade_id)
    (h : r₂.trade_id = r₁.trade_id) :
    store_print (store_print db r₁) r₂ = store_print db r₁ ∧
    (store_print db r₁).prints.filter (fun r => decide (r.trade_id = r₁.trade_id)) = [r₁] := by
  have h1 : db.prints.any (fun q => decide (q.trade_id = r₁.trade_id)) = false := by
    rw [List.any_eq_false]
    intro q hq
    simp [h0 q hq]
  have e1 : store_print db r₁ = { db with prints := db.prints ++ [r₁] } := by
    unfold store_print
    rw [h1]
    rfl
  have h2 : (db.prints ++ [r₁]).any (fun q => decide (q.trade_id = r₂.trade_id)) = true := by
    rw [List.any_append]
    simp [h]
  constructor
  · rw [e1]
    unfold store_print
    simp [h2]
  · rw [e1]
    simp only [List.filter_append]
    rw [List.filter_eq_nil_iff.mpr (by intro q hq; simp [h0 q hq])]
    simp

/-- Witness for `C5_duplicate_insert_ignored` on an empty store and two
rows sharing the id `"T"`. -/
theorem C5_duplicate_insert_ignored_witness :
    store_print (store_print dbE rW1) rW2 = store_print dbE rW1 ∧
    (store_print dbE rW1).prints.filter (fun r => decide (r.trade_id = rW1.trade_id)) = [rW1] :=
  C5_duplicate_insert_ignored dbE rW1 rW2 (by intro r hr; simp [dbE] at hr) (by decide)

/-- C6: delivery outcomes are irrelevant to processing.  For any two
delivery oracles (in particular ones differing in whether one subscriber's
notification for one trade fails), a poll cycle stores the same rows,
persists the same watermark, and attempts exactly the same notifications
to all subscribers for all trades — only the recorded delivery outcomes
differ, and each outcome is precisely the oracle's answer for that
(user, trade) pair.  A dispatch failure therefore leaves the processing
of all remaining subscribers and trades unchanged. -/
theorem C6_dispatch_isolation (env : Env) (o₁ o₂ : Int → String → Bool) (db : DB) (wm : Int)
    (trades : List RawTrade) :
    (ingestCycle env o₁ db wm trades).db = (ingestCycle env o₂ db wm trades).db ∧
    (ingestCycle env o₁ db wm trades).lastTs = (ingestCycle env o₂ db wm trades).lastTs ∧
    ((ingestCycle env o₁ db wm trades).notifs).map eraseDelivered =
      ((ingestCycle env o₂ db wm trades).notifs).map eraseDelivered ∧
    ∀ n ∈ (ingestCycle env o₁ db wm trades).notifs, n.delivered = o₁ n.uid n.tradeId := by
  rw [ingestCycle_eq env o₁ db wm trades, ingestCycle_eq env o₂ db wm trades]
  obtain ⟨hdb, hns⟩ :=
    foldl_dbStep_send env o₁ o₂ (env.subs.filter (fun s => decide (s.alerts_on = 1)))
      trades db [] [] rfl
  refine ⟨?_, rfl, ?_, ?_⟩
  · show (trades.foldl
        (dbStep env o₁ (env.subs.filter (fun s => decide (s.alerts_on = 1)))) (db, [])).1 =
      (trades.foldl
        (dbStep env o₂ (env.subs.filter (fun s => decide (s.alerts_on = 1)))) (db, [])).1
    exact hdb
  · exact hns
  · intro n hn
    exact foldl_dbStep_delivered env o₁
      (env.subs.filter (fun s => decide (s.alerts_on = 1))) trades db []
      (by intro n' hn'; simp at hn') n hn

/-- Witness for `C6_dispatch_isolation`: same cycle under an
always-failing and an always-succeeding transport; the single attempted
notification exists in both runs and records the failing outcome under
the failing oracle. -/
theorem C6_dispatch_isolation_witness :
    (ingestCycle envW6 sendBad dbE 0 [trC1]).db = (ingestCycle envW6 sendOk dbE 0 [trC1]).db ∧
    ((ingestCycle envW6 sendBad dbE 0 [trC1]).notifs).map eraseDelivered =
      ((ingestCycle envW6 sendOk dbE 0 [trC1]).notifs).map eraseDelivered ∧
    (⟨1, "T1", "BTCUSD", [], false⟩ : Notif).delivered = sendBad 1 "T1" :=
  ⟨(C6_dispatch_isolation envW6 sendBad sendOk dbE 0 [trC1]).1,
   (C6_dispatch_isolation envW6 sendBad sendOk dbE 0 [trC1]).2.2.1,
   (C6_dispatch_isolation envW6 sendBad sendOk dbE 0 [trC1]).2.2.2
     ⟨1, "T1", "BTCUSD", [], false⟩ (by decide)⟩

/-- C7: a `fetch_trades_since` issued while the filter is marked
supported that receives a 400 downgrades the capability to unsupported,
makes exactly one filtered attempt followed by exactly one unfiltered
retry, and surfaces that retry's outcome (its data, or its error) to the
caller; and once the capability is unsupported, every later call of the
run leaves it unsupported and never includes the filter. -/
theorem C7_capability_downgrade (oracle : Bool → FetchResp)
    (h : oracle true = .status400) :
    (fetch_trades_since ⟨some true⟩ oracle).state = ⟨some false⟩ ∧
    (fetch_trades_since ⟨some true⟩ oracle).calls = [true, false] ∧
    (fetch_trades_since ⟨some true⟩ oracle).result = surfaced (oracle false) ∧
    ∀ (st : FetchState), st.min_ts_supported = some false →
      ∀ (os : List (Bool → FetchResp)),
        (runFetches st os).1 = ⟨some false⟩ ∧
        ∀ t ∈ (runFetches st os).2, ∀ b ∈ t, b = false := by
  have e : fetch_trades_since ⟨some true⟩ oracle =
      ⟨surfaced (oracle false), ⟨some false⟩, [true, false]⟩ := by
    unfold fetch_trades_since fetch_call
    simp [h]
  refine ⟨by rw [e], by rw [e], by rw [e], ?_⟩
  intro st hst os
  exact runFetches_unfiltered os st hst

/-- Witness for `C7_capability_downgrade` at an upstream that 400s the
filtered call and succeeds unfiltered. -/
theorem C7_capability_downgrade_witness :
    oracleC7 true = .status400 ∧
    (fetch_trades_since ⟨some true⟩ oracleC7).state = ⟨some false⟩ ∧
    (fetch_trades_since ⟨some true⟩ oracleC7).calls = [true, false] ∧
    (fetch_trades_since ⟨some true⟩ oracleC7).result = surfaced (oracleC7 false) ∧
    (runFetches ⟨some false⟩ [oracleC7, oracleC7]).1 = ⟨some false⟩ :=
  ⟨rfl,
   (C7_capability_downgrade oracleC7 rfl).1,
   (C7_capability_downgrade oracleC7 rfl).2.1,
   (C7_capability_downgrade oracleC7 rfl).2.2.1,
   ((C7_capability_downgrade oracleC7 rfl).2.2.2 ⟨some false⟩ rfl [oracleC7, oracleC7]).1⟩

/-- C8: let the request order be some failing-over prefix (hosts
answering 5xx or a network error) followed by a decisive host `x`.  If
`x` answers 200, the call returns `x`'s data and pins `x` for subsequent
calls.  If `x` answers a 4xx, the call surfaces that client error
immediately with the pin unchanged, and the outcome is independent of
every host after `x` — they are never consulted. -/
theorem C8_failover (probe : String → Bool) (respond : String → GetResp) (st : HttpState)
    (bad : List String) (x : String) (rest : List String)
    (horder : requestOrder probe st = bad ++ x :: rest)
    (hbad : ∀ b ∈ bad, respond b = .server5xx ∨ respond b = .netErr) :
    (∀ d : String, respond x = .ok d →
      resilient_get probe respond st = (.ok d, ⟨st.hosts, some x⟩)) ∧
    (respond x = .client4xx →
      resilient_get probe respond st =
          (.error .client4xx, ⟨st.hosts, some (currentHost probe st)⟩) ∧
        ∀ respond' : String → GetResp,
          (∀ b ∈ bad, respond' b = respond b) → respond' x = .client4xx →
          resilient_get probe respond' st =
            (.error .client4xx, ⟨st.hosts, some (currentHost probe st)⟩)) := by
  constructor
  · intro d hx
    unfold resilient_get
    rw [horder, try_hosts_ok respond d bad x rest none hbad hx]
  · intro hx
    have e : ∀ (resp : String → GetResp), (∀ b ∈ bad, resp b = respond b) →
        resp x = .client4xx →
        resilient_get probe resp st =
          (.error .client4xx, ⟨st.hosts, some (currentHost probe st)⟩) := by
      intro resp hagree hrx
      unfold resilient_get
      rw [horder, try_hosts_4xx resp bad x rest none
        (fun b hb => by rw [hagree b hb]; exact hbad b hb) hrx]
    exact ⟨e respond (fun b _ => rfl) hx, fun r' h1 h2 => e r' h1 h2⟩

/-- Witness for `C8_failover`: pinned host A answers 5xx, fallback B
answers 200; the call succeeds with B's data and B becomes pinned. -/
theorem C8_failover_witness :
    requestOrder (fun _ => true) stC8 = ["A"] ++ "B" :: [] ∧
    resilient_get (fun _ => true) respondC8 stC8 = (.ok "data", ⟨["A", "B"], some "B"⟩) :=
  ⟨by decide,
   (C8_failover (fun _ => true) respondC8 stC8 ["A"] "B" [] (by decide) (by decide)).1
     "data" (by decide)⟩

/-- C9: for a positive-notional trade on an instrument with a previously
recorded per-ticker timestamp `v` (the stats schema declares `DEFAULT 0`
and `last_trade_ts_for_ticker` returns `0` for a missing row, so "has a
previous `last_trade_ts_ms`" is the source's own `if last_tick_ts:`
check, `v ≠ 0`), and whose id is not yet stored, the freshly stored row
carries `Silent-breaker` if and only if the trade's timestamp minus `v`
is at least 7200000 ms — a gap of exactly two hours is tagged, one of
7199999 ms is not — and the gap is always measured against the value
recorded BEFORE this trade's own update: afterwards the recorded value
is this trade's timestamp. -/
theorem C9_silent_breaker_boundary (env : Env) (send : Int → String → Bool)
    (active : List SubRow) (st : CycleState) (tr : RawTrade) (v : Int)
    (hpos : ¬ Frac.le (trade_notional_usd tr) (Frac.ofInt 0))
    (hv : last_trade_ts_for_ticker st.db (trade_core_fields env.nowMs tr).ticker = v)
    (hv0 : v ≠ 0)
    (hfresh : st.db.prints.any
        (fun q => decide (q.trade_id = (trade_core_fields env.nowMs tr).trade_id)) = false) :
    (∃ row : PrintRow,
        (processTrade env send active st tr).1.db.prints = st.db.prints ++ [row] ∧
        ("Silent-breaker" ∈ row.flags ↔
          7200000 ≤ (trade_core_fields env.nowMs tr).ts_ms - v)) ∧
    last_trade_ts_for_ticker (processTrade env send active st tr).1.db
        (trade_core_fields env.nowMs tr).ticker =
      (trade_core_fields env.nowMs tr).ts_ms := by
  unfold processTrade
  simp only [if_neg hpos]
  constructor
  · refine ⟨_, store_print_fresh _ _ hfresh, ?_⟩
    rw [sb_mem_flags2]
    rw [hv]
    rw [and_iff_right hv0]
    norm_num
  · unfold last_trade_ts_for_ticker
    rw [store_print_stats]
    exact statsLookup_upsert_self _ _ _

/-- Witness for `C9_silent_breaker_boundary`: prior record 1000 ms,
trade at 7201000 ms (gap exactly two hours); afterwards the recorded
timestamp is 7201000. -/
theorem C9_silent_breaker_boundary_witness :
    ¬ Frac.le (trade_notional_usd trW9) (Frac.ofInt 0) ∧
    last_trade_ts_for_ticker (processTrade envPlain sendOk [] stW9 trW9).1.db "ABC" =
      7201000 :=
  ⟨by decide,
   (C9_silent_breaker_boundary envPlain sendOk [] stW9 trW9 1000 (by decide) (by decide)
     (by decide) (by decide)).2⟩

/-- C10: rows stored by a poll cycle never carry `Accumulation` — the
tag is appended only after `store_print` has already run (src/app.py
lines 420-430) — so as long as every pre-existing stored row carries
only pre-insert tags, every row after the cycle carries only
`Silent-breaker` or `Unusual size`; meanwhile the tag can reach the
dispatched notification text, witnessed concretely: the third rapid
high-value print's notification carries `Accumulation` while no stored
row of that same run does. -/
theorem C10_accumulation_never_stored :
    (∀ (env : Env) (send : Int → String → Bool) (db : DB) (wm : Int)
        (trades : List RawTrade),
      (∀ r ∈ db.prints, ∀ f ∈ r.flags, f = "Silent-breaker" ∨ f = "Unusual size") →
      ∀ r ∈ (ingestCycle env send db wm trades).db.prints,
        "Accumulation" ∉ r.flags ∧
          ∀ f ∈ r.flags, f = "Silent-breaker" ∨ f = "Unusual size") ∧
    (∃ n ∈ (ingestCycle envX sendOk dbE 0 tradesX).notifs, "Accumulation" ∈ n.flags) ∧
    (∀ r ∈ (ingestCycle envX sendOk dbE 0 tradesX).db.prints, "Accumulation" ∉ r.flags) := by
  refine ⟨?_, ?_, ?_⟩
  · intro env send db wm trades hdb r hr
    rw [ingestCycle_eq] at hr
    have h := foldl_dbStep_flags env send
      (env.subs.filter (fun s => decide (s.alerts_on = 1))) trades db [] hdb r hr
    refine ⟨?_, h⟩
    intro hacc
    rcases h _ hacc with h1 | h1 <;> simp at h1
  · exact ⟨⟨1, "X3", "AAA", ["Accumulation"], true⟩, by decide, by decide⟩
  · decide

/-- Witness for `C10_accumulation_never_stored`: evaluated on the
concrete three-trade run, every stored row is `Accumulation`-free. -/
theorem C10_accumulation_never_stored_witness :
    ((ingestCycle envX sendOk dbE 0 tradesX).db.prints.all
      (fun r => decide ("Accumulation" ∉ r.flags))) = true := by
  have h := C10_accumulation_never_stored.1 envX sendOk dbE 0 tradesX
    (by intro r hr; simp [dbE] at hr)
  rw [List.all_eq_true]
  intro r hr
  exact decide_eq_true (h r hr).1
